import Mathlib

/-!
Verification of docklib (homebysix/docklib), a Python module for manipulating
the macOS Dock.  The definitions below are a shallow embedding of
`docklib/docklib.py`: Python dicts holding dock tiles become Lean structures
with `Option` fields (a `none` field models an absent dict key), Python
exceptions become `Except`, and the ambient system state consulted by the code
(filesystem, `launchctl` subprocess results, CFPreferences) is passed
explicitly as input.
-/

namespace Docklib

/-! ## Models of the Python standard-library helpers used by docklib

These functions are not part of the repository; they model the behaviour of
the named Python standard-library functions on the inputs docklib feeds them.
-/

/-- Model of Python `str.rstrip("/")`: removes every trailing `/` character. -/
def pyRstripSlash (s : String) : String :=
  ⟨(s.data.reverse.dropWhile (· == '/')).reverse⟩

/-- Characters after the first `://`, if the separator occurs at all. -/
def afterSchemeSep : List Char → Option (List Char)
  | ':' :: '/' :: '/' :: rest => some rest
  | _ :: rest => afterSchemeSep rest
  | [] => none

/-- Model of `urllib.parse.urlparse(url).path`: everything after the
`scheme://netloc` prefix, where the netloc extends to the first `/`.
A string with no `://` is all path.  Dock tile URLs carry no query or
fragment, so those components are not modelled. -/
def urlparsePath (url : String) : String :=
  match afterSchemeSep url.data with
  | some tail => ⟨tail.dropWhile (· ≠ '/')⟩
  | none => url

/-- Value of a hexadecimal digit character, if it is one. -/
def hexVal (c : Char) : Option Nat :=
  if '0' ≤ c ∧ c ≤ '9' then some (c.toNat - '0'.toNat)
  else if 'a' ≤ c ∧ c ≤ 'f' then some (c.toNat - 'a'.toNat + 10)
  else if 'A' ≤ c ∧ c ≤ 'F' then some (c.toNat - 'A'.toNat + 10)
  else none

/-- Character-list worker for `unquote`. -/
def unquoteChars : List Char → List Char
  | '%' :: a :: b :: rest =>
      match hexVal a, hexVal b with
      | some x, some y => Char.ofNat (16 * x + y) :: unquoteChars rest
      | _, _ => '%' :: unquoteChars (a :: b :: rest)
  | c :: rest => c :: unquoteChars rest
  | [] => []

/-- Model of `urllib.parse.unquote`: percent-decoding.  Multi-byte UTF-8
sequences are decoded byte-by-byte to code points, which agrees with Python
on the ASCII percent-escapes appearing in Dock file URLs. -/
def unquote (s : String) : String := ⟨unquoteChars s.data⟩

/-- Model of `os.path.basename`: the part after the last `/`. -/
def basename (p : String) : String :=
  ⟨(p.data.reverse.takeWhile (· ≠ '/')).reverse⟩

/-- Model of `os.path.splitext` restricted to strings without `/`
(docklib only ever applies it to basenames): splits at the last dot,
except that a name whose part before the last dot consists only of dots
(such as `.bashrc` or `...`) has no extension. -/
def splitextBase (name : String) : String × String :=
  let rcs := name.data.reverse
  let extRev := rcs.takeWhile (· ≠ '.')
  match rcs.dropWhile (· ≠ '.') with
  | [] => (name, "")
  | _dot :: stemRev =>
      if stemRev.any (· ≠ '.') then
        (⟨stemRev.reverse⟩, ⟨'.' :: extRev.reverse⟩)
      else
        (name, "")

/-- Model of Python's `in` operator on strings: substring containment. -/
def pyIn (sub s : String) : Bool := decide (sub.data <:+: s.data)

/-- Model of `NSURL.fileURLWithPath_(path).absoluteString()`: a `file://` URL
for the path.  Percent-encoding of special characters and the trailing slash
NSURL adds for directories are not modelled; no claim depends on the URL
text produced here. -/
def fileURLString (p : String) : String := "file://" ++ p

/-- Model of `NSURL.URLWithString_(url).absoluteString()`: the identity on the
already-absolute URL strings docklib passes in. -/
def nsurlAbsoluteString (u : String) : String := u

/-! ## The dock tile data model

A dock tile is a plist dict with a `tile-data` sub-dict and a `tile-type`
string.  `Option` fields model keys that may be absent (`none` = key absent,
matching Python's `dict.get`). -/

/-- Embeds the `file-data` / `url` sub-dicts: a CFURL reference.  The
`_CFURLStringType` value is the constant 15 everywhere in docklib, so only
the `_CFURLString` member is carried. -/
structure FileData where
  cfurlString : String
  deriving DecidableEq, Repr

/-- Embeds the `tile-data` dict of a dock tile.  Fields are the keys docklib
reads or writes; `none` models an absent key. -/
structure TileData where
  fileLabel : Option String := none
  label : Option String := none
  fileData : Option FileData := none
  url : Option FileData := none
  fileType : Option Int := none
  arrangement : Option Int := none
  displayas : Option Int := none
  showas : Option Int := none
  dockExtra : Option Bool := none
  deriving DecidableEq, Repr

/-- Embeds a dock tile: the dict with keys `tile-data` and `tile-type`. -/
structure Tile where
  tileData : TileData
  tileType : String
  deriving DecidableEq, Repr

/-- Embeds `Dock.items`: the two persistent sections loaded from
preferences.  A section is `none` when `CFPreferencesCopyAppValue` returned
no list for its key (the Python code stores `None` then). -/
structure DockItems where
  persistentApps : Option (List Tile)
  persistentOthers : Option (List Tile)
  deriving DecidableEq, Repr

/-! ## Tile constructors -/

/-- Embeds `Dock.makeDockAppSpacer` (docklib.py lines 404-411): rejects any
`tile_type` other than the two spacer variants with a `ValueError`, and
otherwise returns a tile with an empty `tile-data` dict. -/
def makeDockAppSpacer (tileType : String) : Except String Tile :=
  if tileType ∉ ["spacer-tile", "small-spacer-tile"] then
    .error (tileType ++ ": invalid makeDockAppSpacer type.")
  else
    .ok { tileData := {}, tileType := tileType }

/-- Embeds `Dock.makeDockAppEntry` (lines 413-427).  The Python default
`label_name=""` and its falsy test are modelled verbatim. -/
def makeDockAppEntry (thePath : String) (labelName : String := "") : Tile :=
  let labelName :=
    if labelName == "" then (splitextBase (basename thePath)).1 else labelName
  { tileData :=
      { fileData := some ⟨fileURLString thePath⟩
        fileLabel := some labelName
        fileType := some 41 }
    tileType := "file-tile" }

/-- Embeds `Dock.makeDockOtherEntry` (lines 429-481).  The `os.path.isdir`
check on the ambient filesystem is passed in as `isDir`. -/
def makeDockOtherEntry (isDir : Bool) (thePath : String)
    (arrangement : Int := 0) (displayas : Int := 1) (showas : Int := 0) :
    Tile :=
  let labelName := (splitextBase (basename thePath)).1
  let arrangement :=
    if arrangement == 0 then
      if labelName == "Downloads" then 2 else 1
    else arrangement
  let nsUrl := fileURLString thePath
  if isDir then
    { tileData :=
        { arrangement := some arrangement
          displayas := some displayas
          fileData := some ⟨nsUrl⟩
          fileLabel := some labelName
          dockExtra := some false
          showas := some showas }
      tileType := "directory-tile" }
  else
    { tileData :=
        { fileData := some ⟨nsUrl⟩
          fileLabel := some labelName
          dockExtra := some false }
      tileType := "file-tile" }

/-- Embeds `Dock.makeDockOtherURLEntry` (lines 483-498).  The Python `label`
parameter has declared default `""`; an explicitly passed `None` is modelled
by `none`, so a call omitting the argument is a call with `some ""`.  The
code tests `label is None`, not falsiness. -/
def makeDockOtherURLEntry (theURL : String) (label : Option String) : Tile :=
  let labelName :=
    match label with
    | none => theURL
    | some l => l
  { tileData :=
      { label := some labelName
        url := some ⟨nsurlAbsoluteString theURL⟩ }
    tileType := "url-tile" }

/-- A call of `makeDockOtherURLEntry` with the `label` argument omitted:
Python substitutes the declared default `""`. -/
def makeDockOtherURLEntryDefault (theURL : String) : Tile :=
  makeDockOtherURLEntry theURL (some "")

/-! ## Finding entries -/

/-- Embeds `item["tile-data"].get("file-data", {}).get("_CFURLString", "")`
(line 260): the URL stored in a tile, or `""` when the tile has no
`file-data` key. -/
def tileURL (t : Tile) : String :=
  match t.tileData.fileData with
  | some fd => fd.cfurlString
  | none => ""

/-- Embeds `path = unquote(urlparse(url.rstrip("/")).path)` (line 261). -/
def tilePath (t : Tile) : String :=
  unquote (urlparsePath (pyRstripSlash (tileURL t)))

/-- Embeds `name_ext = os.path.basename(path)` (line 262). -/
def tileNameExt (t : Tile) : String := basename (tilePath t)

/-- Embeds `name_noext = os.path.splitext(name_ext)[0]` (line 263). -/
def tileNameNoext (t : Tile) : String := (splitextBase (tileNameExt t)).1

/-- Embeds the body of the inner loop of `findExistingEntry`
(lines 259-288): whether one tile matches `matchStr` under the criterion
`m`.  For `label`, the code tries the `file-label` key then the `label`
key (`dict.get` of an absent key gives Python `None`, which never equals a
string); an unrecognised criterion string matches nothing. -/
def tileMatches (m : String) (matchStr : String) (t : Tile) : Bool :=
  if m == "label" then
    t.tileData.fileLabel == some matchStr || t.tileData.label == some matchStr
  else if m == "path" then tilePath t == matchStr
  else if m == "name_ext" then tileNameExt t == matchStr
  else if m == "name_noext" then tileNameNoext t == matchStr
  else false

/-- Index of the first list element satisfying `p`: the
`for index, item in enumerate(section_items)` / `return index` pattern. -/
def firstIdx (p : Tile → Bool) : List Tile → Option Nat
  | [] => none
  | t :: ts => if p t then some 0 else (firstIdx p ts).map (· + 1)

/-- Embeds the outer loop of `findExistingEntry` (lines 256-288): one full
pass over the section per criterion, in the order given; the first criterion
whose pass finds anything determines the result. -/
def findCriteria (matchStr : String) (items : List Tile) :
    List String → Int
  | [] => -1
  | m :: ms =>
      match firstIdx (tileMatches m matchStr) items with
      | some i => (i : Int)
      | none => findCriteria matchStr items ms

/-- Embeds `Dock.findExistingEntry` (lines 222-293).  The Python method
reads `self.items[section]`; here the section's stored value is passed
directly (`none` models a section loaded as Python `None`).  `if
section_items:` is falsy both for `None` and for an empty list. -/
def findExistingEntry (matchStr : String) (matchOn : String)
    (sectionItems : Option (List Tile)) : Int :=
  match sectionItems with
  | none => -1
  | some items =>
      if items.isEmpty then -1
      else
        let matchOns :=
          if matchOn == "any" then ["label", "path", "name_ext", "name_noext"]
          else [matchOn]
        findCriteria matchStr items matchOns

/-- Stated from the spec's words for `find_entry` with the `any` strategy:
try `label`, then `path`, then `name_ext`, then `name_noext`, each as a
full independent pass over the whole collection, and return the index
found by the first (highest-priority) criterion whose pass matches
anything. -/
def findAnySpec (matchStr : String) (items : List Tile) : Int :=
  match firstIdx (tileMatches "label" matchStr) items with
  | some i => (i : Int)
  | none =>
    match firstIdx (tileMatches "path" matchStr) items with
    | some i => (i : Int)
    | none =>
      match firstIdx (tileMatches "name_ext" matchStr) items with
      | some i => (i : Int)
      | none =>
        match firstIdx (tileMatches "name_noext" matchStr) items with
        | some i => (i : Int)
        | none => -1

/-! ## Removing and replacing entries -/

/-- Reads `self.items[sect]` for one of the two persistent sections.
Python would raise `KeyError` for any other key; docklib only ever looks up
the two section names, and the theorems below restrict to them. -/
def getSection (d : DockItems) (s : String) : Option (List Tile) :=
  if s == "persistent-apps" then d.persistentApps else d.persistentOthers

/-- Writes `self.items[sect]` for one of the two persistent sections. -/
def setSection (d : DockItems) (s : String) (l : Option (List Tile)) :
    DockItems :=
  if s == "persistent-apps" then { d with persistentApps := l }
  else { d with persistentOthers := l }

/-- Embeds `del self.items[sect][found_index]` on a section known to hold a
list: removal of the element at one index. -/
def delIdx (l : Option (List Tile)) (i : Nat) : Option (List Tile) :=
  l.map (fun xs => xs.eraseIdx i)

/-- Embeds the `for sect in sections:` loop of `removeDockEntry`
(lines 334-343): per section, find one entry and delete it if found.  The
`removed_count` variable only feeds logging and is not modelled. -/
def removeLoop (matchStr matchOn : String) : List String → DockItems → DockItems
  | [], d => d
  | s :: rest, d =>
      let foundIndex := findExistingEntry matchStr matchOn (getSection d s)
      let d' :=
        if foundIndex > -1 then
          setSection d s (delIdx (getSection d s) foundIndex.toNat)
        else d
      removeLoop matchStr matchOn rest d'

/-- Embeds `Dock.removeDockEntry` (lines 322-346): with a truthy `section`
argument only that section is processed, otherwise `_SECTIONS` in order
(`persistent-apps` then `persistent-others`). -/
def removeDockEntry (matchStr : String) (matchOn : String := "any")
    (sectionArg : String := "") (d : DockItems) : DockItems :=
  let sections :=
    if sectionArg ≠ "" then [sectionArg]
    else ["persistent-apps", "persistent-others"]
  removeLoop matchStr matchOn sections d

/-- Embeds `Dock.replaceDockEntry` (lines 359-402).  `isDir` feeds the
`os.path.isdir` check inside `makeDockOtherEntry` when the target section is
not `persistent-apps`.  The Python guard `if not newitem: return` is dead
code (both constructors return a non-empty dict, which is truthy) and the
deprecated `label` parameter's branch is translated verbatim. -/
def replaceDockEntry (isDir : Bool) (newpath : String)
    (matchStr : String := "") (matchOn : String := "any")
    (label : String := "") (sectionArg : String := "persistent-apps")
    (d : DockItems) : DockItems :=
  let newitem :=
    if sectionArg == "persistent-apps" then makeDockAppEntry newpath
    else makeDockOtherEntry isDir newpath
  let (matchStr, matchOn) :=
    if label ≠ "" then (label, "label") else (matchStr, matchOn)
  let matchStr :=
    if matchStr == "" then (splitextBase (basename newpath)).1 else matchStr
  let foundIndex := findExistingEntry matchStr matchOn (getSection d sectionArg)
  if foundIndex > -1 then
    setSection d sectionArg
      ((getSection d sectionArg).map (fun xs => xs.set foundIndex.toNat newitem))
  else d

/-! ## LaunchAgent operations and `save`

`LaunchAgentManager` shells out to `launchctl`; a subprocess outcome is
modelled by the `CmdResult` it would return, passed in as input.  `save`
additionally consults CFPreferences; all of that ambient state is collected
in `SaveEnv`, and the externally visible actions `save` performs are
recorded in an ordered effect trace. -/

/-- Result of a completed `subprocess.run` call. -/
structure CmdResult where
  returncode : Int
  stdout : String
  stderr : String
  deriving DecidableEq, Repr

/-- Exceptions that `Dock.save` can raise: the bare `DockError` (from
`CFPreferencesSetAppValue` failures and from a failed synchronize) and
`LaunchAgentError` with its message. -/
inductive SaveErr
  | dockError
  | launchAgentError (msg : String)
  deriving DecidableEq, Repr

/-- Embeds `LaunchAgentManager.bootout` (lines 82-111) as a function of the
`launchctl bootout` subprocess result: exit status 0 reports success, a
failure whose stderr shows the service was not loaded also reports success,
and any other failure raises `LaunchAgentError`. -/
def bootout (serviceName : String) (res : CmdResult) : Except String Bool :=
  if res.returncode == 0 then .ok true
  else if pyIn "No such process" res.stderr
      || pyIn "Could not find service" res.stderr then .ok true
  else .error ("Failed to bootout " ++ serviceName ++ ": " ++ res.stderr)

/-- Embeds `Dock._SECTIONS` (line 143). -/
def SECTIONS : List String := ["persistent-apps", "persistent-others"]

/-- Embeds `Dock._MUTABLE_KEYS` (lines 144-170). -/
def MUTABLE_KEYS : List String :=
  ["autohide", "autohide-immutable", "contents-immutable", "dblclickbehavior",
   "largesize", "launchanim", "launchanim-immutable", "magnification",
   "magnification-immutable", "magsize-immutable", "mineffect",
   "mineffect-immutable", "minimize-to-application",
   "minimize-to-application-immutable", "orientation",
   "orientation-immutable", "position-immutable", "tilesize",
   "show-process-indicators", "show-progress-indicators", "show-recents",
   "show-recents-immutable", "size-immutable", "windowtabbing",
   "AllowDockFixupOverride"]

/-- Externally visible actions performed by `save`, in execution order. -/
inductive Eff
  | bootoutCmd
  | setValue (key : String)
  | synchronize
  | bootstrapCmd
  deriving DecidableEq, Repr

/-- Ambient state consulted by one run of `save`. -/
structure SaveEnv where
  /-- Result of the `launchctl bootout` command issued first. -/
  bootoutRes : CmdResult
  /-- Whether `CFPreferencesSetAppValue` raises for a given key. -/
  setFails : String → Bool
  /-- Whether the attribute backing a mutable key is not Python `None`. -/
  mutablePresent : String → Bool
  /-- Return value of `CFPreferencesAppSynchronize`. -/
  syncOk : Bool
  /-- Whether the Dock LaunchAgent plist exists on disk. -/
  plistExists : Bool
  /-- Result of the `launchctl bootstrap` command. -/
  bootstrapRes : CmdResult

/-- Embeds the `for key in self._SECTIONS:` store loop of `save`
(lines 199-203): each key is written, and a raising write aborts with
`DockError`. -/
def setSectionsLoop (setFails : String → Bool) :
    List String → List Eff → Except SaveErr Unit × List Eff
  | [], tr => (.ok (), tr)
  | k :: ks, tr =>
      let tr := tr ++ [Eff.setValue k]
      if setFails k then (.error .dockError, tr)
      else setSectionsLoop setFails ks tr

/-- Embeds the `for key in self._MUTABLE_KEYS:` loop of `save`
(lines 204-215): keys whose attribute is `None` are skipped, the others are
written, and a raising write aborts with `DockError`. -/
def setMutableLoop (present setFails : String → Bool) :
    List String → List Eff → Except SaveErr Unit × List Eff
  | [], tr => (.ok (), tr)
  | k :: ks, tr =>
      if present k then
        let tr := tr ++ [Eff.setValue k]
        if setFails k then (.error .dockError, tr)
        else setMutableLoop present setFails ks tr
      else setMutableLoop present setFails ks tr

/-- Embeds `Dock.save` (lines 190-220): boot out the Dock LaunchAgent,
write the section and mutable keys, synchronize (a `False` return raises
`DockError`), then bootstrap the LaunchAgent again.  `bootstrap`
(lines 57-80) is inlined at its single call site so the trace records the
point where the `launchctl bootstrap` command is actually run: the
plist-existence check raises before any command is issued. -/
def save (env : SaveEnv) : Except SaveErr Unit × List Eff :=
  let tr : List Eff := [Eff.bootoutCmd]
  match bootout "com.apple.Dock.agent" env.bootoutRes with
  | .error m => (.error (.launchAgentError m), tr)
  | .ok _ =>
    match setSectionsLoop env.setFails SECTIONS tr with
    | (.error e, tr) => (.error e, tr)
    | (.ok _, tr) =>
      match setMutableLoop env.mutablePresent env.setFails MUTABLE_KEYS tr with
      | (.error e, tr) => (.error e, tr)
      | (.ok _, tr) =>
        let tr := tr ++ [Eff.synchronize]
        if !env.syncOk then (.error .dockError, tr)
        else if !env.plistExists then
          (.error (.launchAgentError
            "LaunchAgent plist not found: /System/Library/LaunchAgents/com.apple.Dock.plist"),
           tr)
        else
          let tr := tr ++ [Eff.bootstrapCmd]
          if env.bootstrapRes.returncode == 0 then (.ok (), tr)
          else
            (.error (.launchAgentError
              ("Failed to bootstrap /System/Library/LaunchAgents/com.apple.Dock.plist: "
                ++ env.bootstrapRes.stderr)), tr)

/-! ## Specification-side definitions and concrete fixtures -/

/-- Stated from the spec's words for `remove_entry` acting on one section:
at most one tile is removed — the one found by the matcher — and a section
where nothing matches is left unchanged. -/
def removeFirstMatch (matchStr matchOn : String) (l : Option (List Tile)) :
    Option (List Tile) :=
  let idx := findExistingEntry matchStr matchOn l
  if idx > -1 then delIdx l idx.toNat else l

/-- A spacer tile: empty `tile-data`, so no `file-data` key. -/
def spacerSample : Tile := { tileData := {}, tileType := "spacer-tile" }

/-- A typical app tile as loaded from preferences. -/
def chessTile : Tile :=
  { tileData :=
      { fileLabel := some "Chess"
        fileData := some ⟨"file:///System/Applications/Chess.app/"⟩ }
    tileType := "file-tile" }

/-- A tile whose on-disk path is `/Applications/Safari` but whose label is
`A`: it matches the query `/Applications/Safari` only under the `path`
criterion. -/
def pathOnlyTile : Tile :=
  { tileData :=
      { fileLabel := some "A"
        fileData := some ⟨"file:///Applications/Safari"⟩ }
    tileType := "file-tile" }

/-- A tile with no file data whose label is the string
`/Applications/Safari`: it matches that query only under the `label`
criterion. -/
def labelOnlyTile : Tile :=
  { tileData := { fileLabel := some "/Applications/Safari" }
    tileType := "file-tile" }

/-- A small dock state used by witnesses. -/
def dockSample : DockItems :=
  { persistentApps := some [chessTile], persistentOthers := none }

/-- A save environment whose synchronize call reports failure and whose
other operations succeed. -/
def saveEnvSample : SaveEnv :=
  { bootoutRes := ⟨0, "", ""⟩
    setFails := fun _ => false
    mutablePresent := fun _ => false
    syncOk := false
    plistExists := true
    bootstrapRes := ⟨0, "", ""⟩ }

/-! ## Helper lemmas -/

/-- A found first index is in bounds. -/
theorem firstIdx_lt_length (p : Tile → Bool) (l : List Tile) (i : Nat)
    (h : firstIdx p l = some i) : i < l.length := by
  induction l generalizing i with
  | nil => simp [firstIdx] at h
  | cons t ts ih =>
    by_cases hp : p t
    · simp [firstIdx, hp] at h
      simp only [List.length_cons]
      omega
    · simp [firstIdx, hp] at h
      obtain ⟨j, hj, rfl⟩ := h
      have := ih j hj
      simp
      omega

/-- The first index of a satisfying element: if position `j` satisfies `p`
and no earlier position does, the scan returns `j`. -/
theorem firstIdx_eq_some_of (p : Tile → Bool) (l : List Tile) (j : Nat)
    (hj : j < l.length) (hp : p (l.get ⟨j, hj⟩) = true)
    (hmin : ∀ k (hk : k < l.length), k < j → p (l.get ⟨k, hk⟩) = false) :
    firstIdx p l = some j := by
  induction l generalizing j with
  | nil => simp at hj
  | cons t ts ih =>
    cases j with
    | zero => simp_all [firstIdx]
    | succ n =>
      have ht : p t = false := hmin 0 (by simp) (Nat.succ_pos n)
      have hrec : firstIdx p ts = some n := by
        refine ih n (by simpa using hj) (by simpa using hp) ?_
        intro k hk hkn
        have := hmin (k + 1) (by simpa using hk) (by omega)
        simpa using this
      simp [firstIdx, ht, hrec]

/-- A scan that returns nothing found no satisfying element. -/
theorem firstIdx_eq_none_iff (p : Tile → Bool) (l : List Tile) :
    firstIdx p l = none ↔ ∀ t ∈ l, p t = false := by
  induction l with
  | nil => simp [firstIdx]
  | cons t ts ih =>
    by_cases hp : p t <;> simp [firstIdx, hp, ih]

/-- The result of a criteria sweep is `-1` or an in-bounds index. -/
theorem findCriteria_cases (q : String) (items : List Tile)
    (ms : List String) :
    findCriteria q items ms = -1 ∨
    ∃ i : Nat, findCriteria q items ms = (i : Int) ∧ i < items.length := by
  induction ms with
  | nil => exact Or.inl rfl
  | cons m rest ih =>
    cases h : firstIdx (tileMatches m q) items with
    | none => simpa [findCriteria, h] using ih
    | some i =>
      exact Or.inr ⟨i, by simp [findCriteria, h], firstIdx_lt_length _ _ _ h⟩

/-- The result of `findExistingEntry` is `-1` or an in-bounds index. -/
theorem findExistingEntry_cases (q m : String) (l : List Tile) :
    findExistingEntry q m (some l) = -1 ∨
    ∃ i : Nat, findExistingEntry q m (some l) = (i : Int) ∧ i < l.length := by
  by_cases hl : l.isEmpty
  · exact Or.inl (by simp [findExistingEntry, hl])
  · by_cases hm : m = "any" <;>
      simpa [findExistingEntry, hl, hm] using findCriteria_cases q l _

/-! ## Claim theorems -/

/-- C7: `makeDockAppSpacer` raises a `ValueError` for every `tile_type`
other than `spacer-tile` or `small-spacer-tile`, never raises for those
two values, and returns a tile with the given tile-type and an empty
`tile-data` payload; an invalid variant is never coerced to a valid tile. -/
theorem C7_spacer_validation (t : String) :
    (t = "spacer-tile" ∨ t = "small-spacer-tile" →
      makeDockAppSpacer t = .ok { tileData := {}, tileType := t }) ∧
    (t ≠ "spacer-tile" → t ≠ "small-spacer-tile" →
      makeDockAppSpacer t =
        .error (t ++ ": invalid makeDockAppSpacer type.")) := by
  constructor
  · rintro (rfl | rfl) <;> rfl
  · intro h1 h2
    simp [makeDockAppSpacer, h1, h2]

/-- Witness for C7 at the three inputs named by the spec. -/
theorem C7_spacer_validation_witness :
    makeDockAppSpacer "spacer-tile" =
      .ok { tileData := {}, tileType := "spacer-tile" } ∧
    makeDockAppSpacer "small-spacer-tile" =
      .ok { tileData := {}, tileType := "small-spacer-tile" } ∧
    makeDockAppSpacer "invalid" =
      .error "invalid: invalid makeDockAppSpacer type." :=
  ⟨(C7_spacer_validation "spacer-tile").1 (Or.inl rfl),
   (C7_spacer_validation "small-spacer-tile").1 (Or.inr rfl),
   (C7_spacer_validation "invalid").2 (by decide) (by decide)⟩

/-- C2 counterexample: building a URL tile with the label argument omitted
(Python substitutes the declared default `""`) yields the empty label, not
the string form of the URL, refuting the claim at
`makeDockOtherURLEntry("https://www.apple.com/")`. -/
theorem C2_counterexample :
    (makeDockOtherURLEntryDefault "https://www.apple.com/").tileData.label
        = some "" ∧
    ("" : String) ≠ "https://www.apple.com/" := ⟨rfl, by decide⟩

/-- C2 (amended): with the label argument omitted the tile's label is the
empty string (the declared default `""` is kept verbatim, as is any other
explicitly passed string); only passing Python `None` yields the string
form of the URL. -/
theorem C2_url_label_default (url l : String) :
    (makeDockOtherURLEntryDefault url).tileData.label = some "" ∧
    (makeDockOtherURLEntry url (some l)).tileData.label = some l ∧
    (makeDockOtherURLEntry url none).tileData.label = some url :=
  ⟨rfl, rfl, rfl⟩

/-- C3: a directory tile built with `arrangement` left at 0 gets
arrangement 2 (sort by date added) exactly when the path's base name
without extension is `Downloads`, and 1 (sort by name) otherwise; an
explicitly supplied nonzero arrangement is kept unchanged. -/
theorem C3_downloads_arrangement (p : String) :
    ((makeDockOtherEntry true p).tileData.arrangement =
      some (if (splitextBase (basename p)).1 = "Downloads" then 2 else 1)) ∧
    (∀ a : Int, a ≠ 0 → ∀ dis sho : Int,
      (makeDockOtherEntry true p a dis sho).tileData.arrangement = some a) := by
  constructor
  · by_cases h : (splitextBase (basename p)).1 = "Downloads" <;>
      simp [makeDockOtherEntry, h]
  · intro a ha dis sho
    simp [makeDockOtherEntry, ha]

/-- Witness for C3: `Downloads` gets 2, `Documents` gets 1, and an explicit
arrangement 5 is kept. -/
theorem C3_downloads_arrangement_witness :
    (5 : Int) ≠ 0 ∧
    (makeDockOtherEntry true "/Users/me/Downloads" 5 1 0).tileData.arrangement
      = some 5 :=
  ⟨by decide,
   (C3_downloads_arrangement "/Users/me/Downloads").2 5 (by decide) 1 0⟩

/-- C1: with `match_on="any"`, `findExistingEntry` tries the criteria
`label`, `path`, `name_ext`, `name_noext` in that fixed order, one full
independent pass over the whole section per criterion, returning the index
of the first tile matched by the highest-priority criterion that matches
anything (the result coincides with `findAnySpec`); in particular, a tile
matching `label` wins over any earlier tile that matches only a
lower-priority criterion. -/
theorem C1_find_any_priority (q : String) (items : List Tile) :
    findExistingEntry q "any" (some items) = findAnySpec q items ∧
    (∀ j (hj : j < items.length),
      tileMatches "label" q (items.get ⟨j, hj⟩) = true →
      (∀ k (hk : k < items.length), k < j →
        tileMatches "label" q (items.get ⟨k, hk⟩) = false) →
      findExistingEntry q "any" (some items) = j) := by
  have hmain : findExistingEntry q "any" (some items) = findAnySpec q items := by
    cases items with
    | nil => rfl
    | cons t ts => rfl
  refine ⟨hmain, ?_⟩
  intro j hj hp hmin
  have hfi := firstIdx_eq_some_of _ items j hj hp hmin
  rw [hmain]
  simp [findAnySpec, hfi]

/-- Witness for C1: the tile at index 0 matches the query only by `path`,
the tile at index 1 matches it by `label`; the `any` search returns 1. -/
theorem C1_find_any_priority_witness :
    findExistingEntry "/Applications/Safari" "any"
      (some [pathOnlyTile, labelOnlyTile]) = 1 :=
  (C1_find_any_priority "/Applications/Safari" [pathOnlyTile, labelOnlyTile]).2
    1 (by decide) (by decide)
    (fun k hk hlt => by
      have hk0 : k = 0 := by omega
      subst hk0
      show tileMatches "label" "/Applications/Safari" pathOnlyTile = false
      decide)

/-- C4 counterexample: with the empty query and the `path` criterion, a
spacer tile (no file-data) is matched at index 0, because its derived path
is the empty string — such tiles are not skipped for every query. -/
theorem C4_counterexample :
    findExistingEntry "" "path" (some [spacerSample]) = 0 ∧ (0 : Int) ≠ -1 :=
  ⟨by decide, by decide⟩

/-- C4 (amended): for every nonempty query, a tile lacking a file-data
entry never matches under the `path`, `name_ext` or `name_noext` criteria —
its derived path, basename and stem are all the empty string — and matching
is a total function of the tile, so it never raises; only the empty query
can match such a tile on those criteria. -/
theorem C4_spacer_skipped (q : String) (t : Tile)
    (hfd : t.tileData.fileData = none) (hq : q ≠ "") :
    tileMatches "path" q t = false ∧
    tileMatches "name_ext" q t = false ∧
    tileMatches "name_noext" q t = false := by
  have hurl : tileURL t = "" := by simp [tileURL, hfd]
  have hpath : tilePath t = "" := by
    simp only [tilePath, hurl]
    rfl
  have hext : tileNameExt t = "" := by
    simp only [tileNameExt, hpath]
    rfl
  have hnoext : tileNameNoext t = "" := by
    simp only [tileNameNoext, hext]
    rfl
  have hne : ∀ x : String, x = "" → (x == q) = false := fun x hx =>
    beq_eq_false_iff_ne.mpr (hx ▸ Ne.symm hq)
  refine ⟨?_, ?_, ?_⟩ <;>
    simp [tileMatches, hne _ hpath, hne _ hext, hne _ hnoext]

/-- Witness for C4 (amended) on a concrete spacer tile and query. -/
theorem C4_spacer_skipped_witness :
    tileMatches "path" "Safari" spacerSample = false ∧
    tileMatches "name_ext" "Safari" spacerSample = false ∧
    tileMatches "name_noext" "Safari" spacerSample = false :=
  C4_spacer_skipped "Safari" spacerSample rfl (by decide)

/-- C10: when a named section's loaded value is Python `None` or an empty
list, `findExistingEntry` returns the sentinel `-1` for every query and
criterion without raising, and `removeDockEntry` / `replaceDockEntry`
targeting that section leave the dock state unchanged. -/
theorem C10_missing_section_noop (q m s : String) (d : DockItems)
    (hs : s = "persistent-apps" ∨ s = "persistent-others")
    (h : getSection d s = none ∨ getSection d s = some []) :
    findExistingEntry q m (getSection d s) = -1 ∧
    removeDockEntry q m s d = d ∧
    (∀ isDir newpath,
      replaceDockEntry isDir newpath q m "" s d = d) := by
  have hfind : ∀ q' m', findExistingEntry q' m' (getSection d s) = -1 := by
    intro q' m'
    rcases h with h | h <;> simp [findExistingEntry, h]
  rcases hs with rfl | rfl
  · refine ⟨hfind q m, ?_, ?_⟩
    · simp [removeDockEntry, removeLoop, getSection] at hfind ⊢
      simp [hfind]
    · intro isDir newpath
      simp [getSection] at hfind
      simp [replaceDockEntry, getSection, hfind]
  · refine ⟨hfind q m, ?_, ?_⟩
    · simp [removeDockEntry, removeLoop, getSection] at hfind ⊢
      simp [hfind]
    · intro isDir newpath
      simp [getSection] at hfind
      simp [replaceDockEntry, getSection, hfind]

/-- Witness for C10: removing and replacing in an absent
`persistent-apps` (loaded as `None`) and in an empty `persistent-others`
are no-ops on a concrete dock state. -/
theorem C10_missing_section_noop_witness :
    removeDockEntry "Chess" "any" "persistent-apps"
      ⟨none, some []⟩ = (⟨none, some []⟩ : DockItems) ∧
    replaceDockEntry true "/Applications/Chess.app" "Chess" "any" ""
      "persistent-apps" ⟨none, some []⟩ = (⟨none, some []⟩ : DockItems) ∧
    removeDockEntry "Chess" "any" "persistent-others"
      ⟨none, some []⟩ = (⟨none, some []⟩ : DockItems) ∧
    replaceDockEntry true "/Applications/Chess.app" "Chess" "any" ""
      "persistent-others" ⟨none, some []⟩ = (⟨none, some []⟩ : DockItems) :=
  ⟨(C10_missing_section_noop "Chess" "any" "persistent-apps"
      ⟨none, some []⟩ (Or.inl rfl) (Or.inl rfl)).2.1,
   (C10_missing_section_noop "Chess" "any" "persistent-apps"
      ⟨none, some []⟩ (Or.inl rfl) (Or.inl rfl)).2.2
     true "/Applications/Chess.app",
   (C10_missing_section_noop "Chess" "any" "persistent-others"
      ⟨none, some []⟩ (Or.inr rfl) (Or.inr rfl)).2.1,
   (C10_missing_section_noop "Chess" "any" "persistent-others"
      ⟨none, some []⟩ (Or.inr rfl) (Or.inr rfl)).2.2
     true "/Applications/Chess.app"⟩

/-- Threading the dock state through the two-section removal loop is the
same as removing independently in each section: the loop on
`["persistent-apps", "persistent-others"]` updates disjoint fields. -/
theorem removeDockEntry_no_section (q m : String) (d : DockItems) :
    removeDockEntry q m "" d =
      { persistentApps := removeFirstMatch q m d.persistentApps
        persistentOthers := removeFirstMatch q m d.persistentOthers } := by
  by_cases hA : findExistingEntry q m d.persistentApps > -1 <;>
  by_cases hB : findExistingEntry q m d.persistentOthers > -1 <;>
    simp [removeDockEntry, removeLoop, getSection, setSection,
      removeFirstMatch, hA, hB]

/-- C5: `removeDockEntry` with no section argument attempts removal from
`persistent-apps` and `persistent-others` independently (each section ends
up as `removeFirstMatch` of its old value), deletes at most one tile per
section, and when no tile matches in either section it returns with the
state unchanged — removal of zero tiles is not an error. -/
theorem C5_remove_no_section (q m : String) (d : DockItems) :
    ((removeDockEntry q m "" d).persistentApps
        = removeFirstMatch q m d.persistentApps ∧
     (removeDockEntry q m "" d).persistentOthers
        = removeFirstMatch q m d.persistentOthers) ∧
    (∀ xs, d.persistentApps = some xs →
      ∃ ys, (removeDockEntry q m "" d).persistentApps = some ys ∧
        (ys = xs ∨ ys.length + 1 = xs.length)) ∧
    (∀ xs, d.persistentOthers = some xs →
      ∃ ys, (removeDockEntry q m "" d).persistentOthers = some ys ∧
        (ys = xs ∨ ys.length + 1 = xs.length)) ∧
    (findExistingEntry q m d.persistentApps = -1 →
     findExistingEntry q m d.persistentOthers = -1 →
     removeDockEntry q m "" d = d) := by
  have hone : ∀ xs : List Tile,
      removeFirstMatch q m (some xs) = some xs ∨
      ∃ ys, removeFirstMatch q m (some xs) = some ys ∧
        ys.length + 1 = xs.length := by
    intro xs
    rcases findExistingEntry_cases q m xs with hf | ⟨i, hf, hlen⟩
    · left
      simp [removeFirstMatch, hf]
    · right
      refine ⟨xs.eraseIdx i, ?_, ?_⟩
      · have hpos : ((i : Int) > -1) := by omega
        simp [removeFirstMatch, hf, hpos, delIdx]
      · simp [List.length_eraseIdx, hlen]
        omega
  rw [removeDockEntry_no_section]
  refine ⟨⟨rfl, rfl⟩, ?_, ?_, ?_⟩
  · intro xs hxs
    rw [hxs]
    rcases hone xs with h | ⟨ys, h, hlen⟩
    · exact ⟨xs, h, Or.inl rfl⟩
    · exact ⟨ys, h, Or.inr hlen⟩
  · intro xs hxs
    rw [hxs]
    rcases hone xs with h | ⟨ys, h, hlen⟩
    · exact ⟨xs, h, Or.inl rfl⟩
    · exact ⟨ys, h, Or.inr hlen⟩
  · intro hA hB
    simp [removeFirstMatch, hA, hB]

/-- Witness for C5 on a concrete dock state with one matching tile. -/
theorem C5_remove_no_section_witness :
    ∃ ys, (removeDockEntry "Chess" "any" "" dockSample).persistentApps
        = some ys ∧ (ys = [chessTile] ∨ ys.length + 1 = [chessTile].length) :=
  (C5_remove_no_section "Chess" "any" dockSample).2.1 [chessTile] rfl

/-- C6: `replaceDockEntry` (with the deprecated label parameter unused)
never changes a section's length; when a tile matches the effective query
`eff` (the given `match_str`, or the newpath's basename stem when
`match_str` is empty) the matched position is overwritten with the newly
built tile and every other position keeps its old tile; when nothing
matches, the whole dock state is left unchanged — replace never inserts,
and sections other than the target are never touched. -/
theorem C6_replace_in_place (isDir : Bool) (newpath q m s eff : String)
    (d : DockItems) (hs : s = "persistent-apps" ∨ s = "persistent-others")
    (heff : eff = if q == "" then (splitextBase (basename newpath)).1 else q) :
    ((getSection (replaceDockEntry isDir newpath q m "" s d) s).map
        List.length = (getSection d s).map List.length) ∧
    (∀ xs, getSection d s = some xs →
      ∃ ys, getSection (replaceDockEntry isDir newpath q m "" s d) s
          = some ys ∧
        ys.length = xs.length ∧
        (∀ j : Nat, (j : Int) ≠ findExistingEntry eff m (some xs) →
          ys[j]? = xs[j]?) ∧
        (∀ i : Nat, findExistingEntry eff m (some xs) = (i : Int) →
          ys[i]? = some (if s == "persistent-apps" then
            makeDockAppEntry newpath else makeDockOtherEntry isDir newpath))) ∧
    (findExistingEntry eff m (getSection d s) = -1 →
      replaceDockEntry isDir newpath q m "" s d = d) ∧
    (∀ s2, s2 ≠ s → s2 = "persistent-apps" ∨ s2 = "persistent-others" →
      getSection (replaceDockEntry isDir newpath q m "" s d) s2
        = getSection d s2) := by
  rcases hs with rfl | rfl
  · have hrepl : replaceDockEntry isDir newpath q m "" "persistent-apps" d =
        (if findExistingEntry eff m d.persistentApps > -1 then
          { d with persistentApps :=
              (d.persistentApps.map (fun xs =>
                xs.set (findExistingEntry eff m d.persistentApps).toNat
                  (makeDockAppEntry newpath))) }
        else d) := by
      rw [heff]
      simp [replaceDockEntry, getSection, setSection]
    refine ⟨?_, ?_, ?_, ?_⟩
    · rw [hrepl]
      by_cases hF : findExistingEntry eff m d.persistentApps > -1
      · rw [if_pos hF]
        simp only [getSection]
        cases hxs : d.persistentApps <;> simp [List.length_set]
      · rw [if_neg hF]
    · intro xs hxs
      have hxs2 : d.persistentApps = some xs := hxs
      rw [hxs2] at hrepl
      rcases findExistingEntry_cases eff m xs with hf | ⟨i, hf, hlen⟩
      · rw [hf] at hrepl
        rw [if_neg (by omega)] at hrepl
        refine ⟨xs, ?_, rfl, fun j _ => rfl, fun i2 hi2 => ?_⟩
        · rw [hrepl]
          exact hxs
        · rw [hf] at hi2
          exact absurd hi2 (by omega)
      · rw [hf] at hrepl
        rw [if_pos (by omega : ((i : Nat) : Int) > -1)] at hrepl
        simp only [Option.map_some, Int.toNat_natCast] at hrepl
        refine ⟨xs.set i (makeDockAppEntry newpath), ?_,
          by simp [List.length_set], ?_, ?_⟩
        · rw [hrepl]
          rfl
        · intro j hj
          rw [hf] at hj
          have hij : i ≠ j := by omega
          exact List.getElem?_set_ne hij
        · intro i2 hi2
          rw [hf] at hi2
          have hii : i2 = i := by omega
          subst hii
          simpa using List.getElem?_set_self hlen
    · intro hf
      simp [getSection] at hf
      rw [hrepl, if_neg (by rw [hf]; omega)]
    · intro s2 hne hs2
      rcases hs2 with rfl | rfl
      · exact absurd rfl hne
      · rw [hrepl]
        split <;> simp [getSection]
  · have hrepl : replaceDockEntry isDir newpath q m "" "persistent-others" d =
        (if findExistingEntry eff m d.persistentOthers > -1 then
          { d with persistentOthers :=
              (d.persistentOthers.map (fun xs =>
                xs.set (findExistingEntry eff m d.persistentOthers).toNat
                  (makeDockOtherEntry isDir newpath))) }
        else d) := by
      rw [heff]
      simp [replaceDockEntry, getSection, setSection]
    refine ⟨?_, ?_, ?_, ?_⟩
    · rw [hrepl]
      by_cases hF : findExistingEntry eff m d.persistentOthers > -1
      · rw [if_pos hF]
        simp only [getSection]
        cases hxs : d.persistentOthers <;> simp [List.length_set]
      · rw [if_neg hF]
    · intro xs hxs
      have hxs2 : d.persistentOthers = some xs := hxs
      rw [hxs2] at hrepl
      rcases findExistingEntry_cases eff m xs with hf | ⟨i, hf, hlen⟩
      · rw [hf] at hrepl
        rw [if_neg (by omega)] at hrepl
        refine ⟨xs, ?_, rfl, fun j _ => rfl, fun i2 hi2 => ?_⟩
        · rw [hrepl]
          exact hxs
        · rw [hf] at hi2
          exact absurd hi2 (by omega)
      · rw [hf] at hrepl
        rw [if_pos (by omega : ((i : Nat) : Int) > -1)] at hrepl
        simp only [Option.map_some, Int.toNat_natCast] at hrepl
        refine ⟨xs.set i (makeDockOtherEntry isDir newpath), ?_,
          by simp [List.length_set], ?_, ?_⟩
        · rw [hrepl]
          rfl
        · intro j hj
          rw [hf] at hj
          have hij : i ≠ j := by omega
          exact List.getElem?_set_ne hij
        · intro i2 hi2
          rw [hf] at hi2
          have hii : i2 = i := by omega
          subst hii
          simpa using List.getElem?_set_self hlen
    · intro hf
      simp [getSection] at hf
      rw [hrepl, if_neg (by rw [hf]; omega)]
    · intro s2 hne hs2
      rcases hs2 with rfl | rfl
      · rw [hrepl]
        split <;> simp [getSection]
      · exact absurd rfl hne

/-- Witness for C6: replacing the Chess tile in a one-tile section keeps
the length at one and stores the new tile at index 0. -/
theorem C6_replace_in_place_witness :
    ∃ ys, getSection (replaceDockEntry true "/Applications/Chess.app"
        "Chess" "any" "" "persistent-apps" dockSample) "persistent-apps"
      = some ys ∧
      ys.length = [chessTile].length ∧
      (∀ j : Nat,
        (j : Int) ≠ findExistingEntry "Chess" "any" (some [chessTile]) →
        ys[j]? = [chessTile][j]?) ∧
      (∀ i : Nat,
        findExistingEntry "Chess" "any" (some [chessTile]) = (i : Int) →
        ys[i]? = some (if "persistent-apps" == "persistent-apps" then
          makeDockAppEntry "/Applications/Chess.app"
          else makeDockOtherEntry true "/Applications/Chess.app")) :=
  (C6_replace_in_place true "/Applications/Chess.app" "Chess" "any"
    "persistent-apps" "Chess" dockSample (Or.inl rfl) rfl).2.1 [chessTile] rfl

/-- The section-store loop only appends set-value effects to the trace. -/
theorem setSectionsLoop_trace (f : String → Bool) (ks : List String)
    (tr : List Eff) :
    ∃ tr2, (setSectionsLoop f ks tr).2 = tr ++ tr2 ∧
      ∀ e ∈ tr2, ∃ k, e = Eff.setValue k := by
  induction ks generalizing tr with
  | nil => exact ⟨[], by simp [setSectionsLoop], by simp⟩
  | cons k ks ih =>
    by_cases hf : f k
    · exact ⟨[Eff.setValue k], by simp [setSectionsLoop, hf], by simp⟩
    · obtain ⟨tr2, h1, h2⟩ := ih (tr ++ [Eff.setValue k])
      refine ⟨Eff.setValue k :: tr2, ?_, ?_⟩
      · rw [show tr ++ Eff.setValue k :: tr2 = (tr ++ [Eff.setValue k]) ++ tr2
          by simp]
        rw [← h1]
        simp [setSectionsLoop, hf]
      · intro e he
        rcases List.mem_cons.mp he with rfl | he
        · exact ⟨k, rfl⟩
        · exact h2 e he

/-- The section-store loop returns unit or raises the bare `DockError`. -/
theorem setSectionsLoop_result (f : String → Bool) (ks : List String)
    (tr : List Eff) :
    (setSectionsLoop f ks tr).1 = .ok () ∨
    (setSectionsLoop f ks tr).1 = .error .dockError := by
  induction ks generalizing tr with
  | nil => exact Or.inl rfl
  | cons k ks ih =>
    by_cases hf : f k
    · exact Or.inr (by simp [setSectionsLoop, hf])
    · simpa [setSectionsLoop, hf] using ih (tr ++ [Eff.setValue k])

/-- The mutable-keys loop only appends set-value effects to the trace. -/
theorem setMutableLoop_trace (pres f : String → Bool) (ks : List String)
    (tr : List Eff) :
    ∃ tr2, (setMutableLoop pres f ks tr).2 = tr ++ tr2 ∧
      ∀ e ∈ tr2, ∃ k, e = Eff.setValue k := by
  induction ks generalizing tr with
  | nil => exact ⟨[], by simp [setMutableLoop], by simp⟩
  | cons k ks ih =>
    by_cases hp : pres k
    · by_cases hf : f k
      · exact ⟨[Eff.setValue k], by simp [setMutableLoop, hp, hf], by simp⟩
      · obtain ⟨tr2, h1, h2⟩ := ih (tr ++ [Eff.setValue k])
        refine ⟨Eff.setValue k :: tr2, ?_, ?_⟩
        · rw [show tr ++ Eff.setValue k :: tr2 = (tr ++ [Eff.setValue k]) ++ tr2
            by simp]
          rw [← h1]
          simp [setMutableLoop, hp, hf]
        · intro e he
          rcases List.mem_cons.mp he with rfl | he
          · exact ⟨k, rfl⟩
          · exact h2 e he
    · simpa [setMutableLoop, hp] using ih tr

/-- The mutable-keys loop returns unit or raises the bare `DockError`. -/
theorem setMutableLoop_result (pres f : String → Bool) (ks : List String)
    (tr : List Eff) :
    (setMutableLoop pres f ks tr).1 = .ok () ∨
    (setMutableLoop pres f ks tr).1 = .error .dockError := by
  induction ks generalizing tr with
  | nil => exact Or.inl rfl
  | cons k ks ih =>
    by_cases hp : pres k
    · by_cases hf : f k
      · exact Or.inr (by simp [setMutableLoop, hp, hf])
      · simpa [setMutableLoop, hp, hf] using ih (tr ++ [Eff.setValue k])
    · simpa [setMutableLoop, hp] using ih tr

/-- C8: `bootout` reports success (`true`) both when the `launchctl
bootout` command exits with status zero and when it fails with a
no-such-process / could-not-find-service stderr (service already not
loaded); every other nonzero outcome raises `LaunchAgentError`; and a
`bootout` error aborts the surrounding `save` with that error, before the
bootstrap (Dock restart) command is ever issued. -/
theorem C8_bootout_not_loaded_ok (svc : String) (res : CmdResult) :
    (res.returncode = 0 → bootout svc res = .ok true) ∧
    (pyIn "No such process" res.stderr = true ∨
        pyIn "Could not find service" res.stderr = true →
      bootout svc res = .ok true) ∧
    (res.returncode ≠ 0 →
      pyIn "No such process" res.stderr = false →
      pyIn "Could not find service" res.stderr = false →
      bootout svc res
        = .error ("Failed to bootout " ++ svc ++ ": " ++ res.stderr)) ∧
    (∀ env : SaveEnv, ∀ msg,
      bootout "com.apple.Dock.agent" env.bootoutRes = .error msg →
      (save env).1 = .error (.launchAgentError msg) ∧
      Eff.bootstrapCmd ∉ (save env).2) := by
  refine ⟨?_, ?_, ?_, ?_⟩
  · intro h
    simp [bootout, h]
  · intro h
    by_cases h0 : res.returncode = 0
    · simp [bootout, h0]
    · rcases h with h | h <;> simp [bootout, h0, h]
  · intro h0 h1 h2
    simp [bootout, h0, h1, h2]
  · intro env msg h
    exact ⟨by simp [save, h], by simp [save, h]⟩

/-- Witness for C8: a not-loaded failure is tolerated, a permission
failure raises. -/
theorem C8_bootout_not_loaded_ok_witness :
    bootout "com.apple.Dock.agent"
      ⟨3, "", "Boot-out failed: 3: No such process"⟩ = .ok true ∧
    bootout "com.apple.Dock.agent" ⟨5, "", "Operation not permitted"⟩
      = .error ("Failed to bootout " ++ "com.apple.Dock.agent" ++ ": "
          ++ "Operation not permitted") :=
  ⟨(C8_bootout_not_loaded_ok "com.apple.Dock.agent"
      ⟨3, "", "Boot-out failed: 3: No such process"⟩).2.1
      (Or.inl (by decide)),
   (C8_bootout_not_loaded_ok "com.apple.Dock.agent"
      ⟨5, "", "Operation not permitted"⟩).2.2.1
      (by decide) (by decide) (by decide)⟩

/-- C9: in every execution of `save` whose `CFPreferencesAppSynchronize`
call reports failure, reaching the synchronize step makes `save` raise the
store `DockError`, and the `launchctl bootstrap` command that restarts the
Dock LaunchAgent is never issued — the agent is not restarted after a
failed flush. -/
theorem C9_sync_failure_blocks_restart (env : SaveEnv)
    (hsync : env.syncOk = false) :
    (Eff.synchronize ∈ (save env).2 →
      (save env).1 = .error SaveErr.dockError) ∧
    Eff.bootstrapCmd ∉ (save env).2 := by
  obtain ⟨t1, ht1, hall1⟩ :=
    setSectionsLoop_trace env.setFails SECTIONS [Eff.bootoutCmd]
  have hres1 := setSectionsLoop_result env.setFails SECTIONS [Eff.bootoutCmd]
  rcases h1 : setSectionsLoop env.setFails SECTIONS [Eff.bootoutCmd]
    with ⟨r1, tr1⟩
  rw [h1] at ht1 hres1
  obtain ⟨t2, ht2, hall2⟩ :=
    setMutableLoop_trace env.mutablePresent env.setFails MUTABLE_KEYS tr1
  have hres2 := setMutableLoop_result env.mutablePresent env.setFails
    MUTABLE_KEYS tr1
  rcases h2 : setMutableLoop env.mutablePresent env.setFails MUTABLE_KEYS tr1
    with ⟨r2, tr2⟩
  rw [h2] at ht2 hres2
  simp only at ht1 hres1 ht2 hres2
  have hnot1 : Eff.bootstrapCmd ∉ tr1 := by
    rw [ht1]
    intro hmem
    rcases List.mem_append.mp hmem with h | h
    · simp at h
    · obtain ⟨k, hk⟩ := hall1 _ h
      simp at hk
  have hnot2 : Eff.bootstrapCmd ∉ tr2 := by
    rw [ht2]
    intro hmem
    rcases List.mem_append.mp hmem with h | h
    · exact hnot1 h
    · obtain ⟨k, hk⟩ := hall2 _ h
      simp at hk
  cases hb : bootout "com.apple.Dock.agent" env.bootoutRes with
  | error msg =>
    refine ⟨fun hmem => ?_, ?_⟩
    · simp [save, hb] at hmem
    · simp [save, hb]
  | ok b =>
    cases r1 with
    | error e1 =>
      have he1 : e1 = SaveErr.dockError := by
        rcases hres1 with h | h
        · simp at h
        · simpa using h
      refine ⟨fun hmem => ?_, ?_⟩
      · simp [save, hb, h1, he1]
      · simp only [save, hb, h1]
        exact hnot1
    | ok u =>
      cases r2 with
      | error e2 =>
        have he2 : e2 = SaveErr.dockError := by
          rcases hres2 with h | h
          · simp at h
          · simpa using h
        refine ⟨fun hmem => ?_, ?_⟩
        · simp [save, hb, h1, h2, he2]
        · simp only [save, hb, h1, h2]
          exact hnot2
      | ok u2 =>
        refine ⟨fun hmem => ?_, ?_⟩
        · simp [save, hb, h1, h2, hsync]
        · simp only [save, hb, h1, h2, hsync]
          intro hmem
          rcases List.mem_append.mp hmem with h | h
          · exact hnot2 h
          · simp at h

/-- Witness for C9: in an environment where everything else succeeds but
synchronize fails, `save` raises the store error and the trace contains
the synchronize attempt and no bootstrap command. -/
theorem C9_sync_failure_blocks_restart_witness :
    (save saveEnvSample).1 = .error SaveErr.dockError ∧
    Eff.bootstrapCmd ∉ (save saveEnvSample).2 :=
  ⟨(C9_sync_failure_blocks_restart saveEnvSample rfl).1 (by decide),
   (C9_sync_failure_blocks_restart saveEnvSample rfl).2⟩

end Docklib
